import Mathlib

/-!
Shallow embedding of `src/workers/workers.go` (package `workers`): a fixed
pool of worker goroutines, one scheduler goroutine (`processQueue`) that
drains an admission queue of jobs, a shared first-error slot guarded by a
lock, and cooperative shutdown (`Stop`).

Modelling conventions:
- A task closure `func() error` is modelled by the value it returns when it
  is run (`none` = success), since the pool treats the closure's body as
  completely abstract.
- Each goroutine's loop body becomes a pure step function, and the
  externally visible actions of a run (channel sends, channel closes, error
  slot resets) are recorded as explicit event traces, so that temporal
  claims become statements about positions and counts of events in a trace.
- All error-slot writes of a job happen before the matching `sg.Done()`,
  and the scheduler reads the slot only after `sg.Wait()` returns and under
  the lock, so draining a job's tasks linearizes: its net effect on the
  slot is a fold of the per-task worker behaviour over the arrival order of
  tasks at the workers.  The task list of a job is used as that arrival
  order.
- Go channel semantics: a send on a closed channel panics; this is modelled
  by `chanSend` returning `none` on a closed channel.
-/

namespace Workers

/-- Error values: the pool's own `ErrShutdown`, or an abstract error value
returned by a task closure (tagged by a number). -/
inductive WError where
  | errShutdown : WError
  | taskErr : Nat → WError
deriving DecidableEq, Repr

/-- A task `func() error`, modelled by the value it returns when run
(`none` = success). -/
abbrev Task := Option WError

/-- A `Job`'s task channel, identified with its contents at the time
`Job.Done` closes it: the scheduler's `for t := range j.tasks` loop
consumes exactly these tasks, in push order, and then terminates. -/
structure JobS where
  tasks : List Task
deriving DecidableEq, Repr

/-- `Job.Go`: push one task closure onto the job's task channel. -/
def jobGo (j : JobS) (t : Task) : JobS :=
  ⟨j.tasks ++ [t]⟩

/-- `Job.Done` closes the task channel: the scheduler's drain loop will see
exactly the tasks pushed so far and then exit its range loop. -/
def jobDone (j : JobS) : List Task :=
  j.tasks

/-- The state shared between scheduler and workers that a single worker
step can touch: the first-error slot `w.err` (lock-protected) and the
outstanding-task counter `w.sg`. -/
structure Shared where
  err : Option WError
  sgCount : Nat
deriving DecidableEq, Repr

/-- The worker's error recording (`if w.err == nil { w.err = err }`, under
the write lock): store the new error only if the slot is still empty. -/
def setIfAbsent (slot : Option WError) (e : WError) : Option WError :=
  match slot with
  | none => some e
  | some e0 => some e0

/-- What a worker's `select` can receive: a value from `w.stopWorkers`, or
a task from `w.tasks`. -/
inductive WorkerInput where
  | stopSignal : WorkerInput
  | task : Task → WorkerInput
deriving DecidableEq, Repr

/-- How one iteration of the worker loop ends.  `terminated b` means the
goroutine executed `return`; `b` records whether it sent the confirmation
on `w.stoppedWorkers` before returning.  `continues` means the loop runs
another iteration. -/
inductive WorkerOutcome where
  | terminated : Bool → WorkerOutcome
  | continues : WorkerOutcome
deriving DecidableEq, Repr

/-- One iteration of the `for { select { ... } }` loop in `startWorker`:

- on `<-w.stopWorkers`: send on `w.stoppedWorkers`, then `return`;
- on `j := <-w.tasks`: read `w.err`; if it is non-nil, `w.sg.Done()` and
  then `return` (this `return` is in the source); otherwise run the task,
  on failure store the error if the slot is empty, then `w.sg.Done()` and
  loop again. -/
def workerStep : WorkerInput → Shared → Shared × WorkerOutcome
  | WorkerInput.stopSignal, s => (s, WorkerOutcome.terminated true)
  | WorkerInput.task t, s =>
    if s.err.isSome then
      ({ s with sgCount := s.sgCount - 1 }, WorkerOutcome.terminated false)
    else
      match t with
      | none => ({ s with sgCount := s.sgCount - 1 }, WorkerOutcome.continues)
      | some e =>
          ({ err := setIfAbsent s.err e, sgCount := s.sgCount - 1 },
            WorkerOutcome.continues)

/-- Net effect on the error slot of the workers consuming a job's tasks,
folded over the arrival order of the tasks at the workers: a task picked
up while the slot is occupied is skipped; otherwise it runs, and a failure
is recorded only if the slot is still empty. -/
def runTasksFrom : Option WError → List Task → Option WError
  | e, [] => e
  | e, t :: ts =>
    if e.isSome then
      runTasksFrom e ts
    else
      match t with
      | none => runTasksFrom e ts
      | some te => runTasksFrom (setIfAbsent e te) ts

/-- Externally visible actions of the scheduler goroutine, tagged with the
index of the job in admission (dequeue) order. -/
inductive Ev where
  | dispatchTask : Nat → Nat → Ev
  | waitCleared : Nat → Ev
  | closeCompleted : Nat → Ev
  | deliver : Nat → Option WError → Ev
  | resetErr : Nat → Ev
  | ackClosed : Ev
deriving DecidableEq, Repr

/-- The dispatch events of one job's drain loop: `w.sg.Add(1); w.tasks <- t`
for each task, in order. -/
def dispatchEvs (k : Nat) (ts : List Task) : List Ev :=
  (List.range ts.length).map (fun i => Ev.dispatchTask k i)

/-- One iteration of `processQueue`'s `for j := range w.queue` loop, for
the job with dequeue index `k`, given the value of `w.shouldShutdown` the
iteration reads and the current error slot.  Returns the error slot after
the iteration and the iteration's event trace:

- shutdown read as true: `j.result <- ErrShutdown; continue` — the job's
  `completed` channel is not closed and the error slot is untouched;
- otherwise: dispatch every task, `w.sg.Wait()`, then under the lock
  `close(j.completed)`, `j.result <- w.err`, `w.err = nil`. -/
def schedJob (shouldShutdown : Bool) (err : Option WError) (k : Nat) (j : JobS) :
    Option WError × List Ev :=
  if shouldShutdown then
    (err, [Ev.deliver k (some WError.errShutdown)])
  else
    (none,
      dispatchEvs k j.tasks ++
        [Ev.waitCleared k, Ev.closeCompleted k,
          Ev.deliver k (runTasksFrom err j.tasks), Ev.resetErr k])

/-- The scheduler's whole `for j := range w.queue` loop over the queued
jobs, starting at dequeue index `k` with error slot `e`.  `ss i` is the
value of `w.shouldShutdown` that the iteration for job `i` reads (the flag
is monotonic in the program, but no monotonicity is needed here). -/
def schedJobs (ss : Nat → Bool) : Option WError → Nat → List JobS → Option WError × List Ev
  | e, _, [] => (e, [])
  | e, k, j :: js =>
    ((schedJobs ss (schedJob (ss k) e k j).1 (k + 1) js).1,
      (schedJob (ss k) e k j).2 ++ (schedJobs ss (schedJob (ss k) e k j).1 (k + 1) js).2)

/-- The state read and written by the final acknowledgment block at the end
of `processQueue`, plus a counter of how many times `close(w.ackShutdown)`
has been executed (closing an already-closed channel would panic, so the
count must never exceed one). -/
structure AckState where
  shouldShutdown : Bool
  triggeredShutdown : Bool
  ackCloses : Nat
deriving DecidableEq, Repr

/-- The final block of `processQueue`, run after the queue range loop ends:
under the lock, if `w.shouldShutdown && !w.triggeredShutdown`, set
`w.triggeredShutdown` and `close(w.ackShutdown)`. -/
def finalAck (s : AckState) : AckState :=
  if s.shouldShutdown && !s.triggeredShutdown then
    { s with triggeredShutdown := true, ackCloses := s.ackCloses + 1 }
  else
    s

/-- The result of a whole `processQueue` run. -/
structure SchedResult where
  errSlot : Option WError
  trace : List Ev
  ack : AckState
deriving DecidableEq, Repr

/-- A whole run of the `processQueue` goroutine: drain the queued jobs,
then run the final acknowledgment block (reading `w.shouldShutdown` as
`ssFinal` there), emitting `Ev.ackClosed` if it closes `w.ackShutdown`. -/
def processQueue (ss : Nat → Bool) (ssFinal : Bool) (js : List JobS) : SchedResult :=
  ⟨(schedJobs ss none 0 js).1,
    (schedJobs ss none 0 js).2 ++
      (if (finalAck ⟨ssFinal, false, 0⟩).ackCloses = 1 then [Ev.ackClosed] else []),
    finalAck ⟨ssFinal, false, 0⟩⟩

/-- The dequeue index an event is about, if any. -/
def evJob : Ev → Option Nat
  | Ev.dispatchTask k _ => some k
  | Ev.waitCleared k => some k
  | Ev.closeCompleted k => some k
  | Ev.deliver k _ => some k
  | Ev.resetErr k => some k
  | Ev.ackClosed => none

/-- Is this event a delivery (`j.result <- ...`) to job `m`? -/
def isDeliverTo (m : Nat) : Ev → Bool
  | Ev.deliver k _ => k == m
  | _ => false

/-- Is this event the error-slot reset performed for job `m`? -/
def isResetOf (m : Nat) : Ev → Bool
  | Ev.resetErr k => k == m
  | _ => false

/-- Is this event the completion-signal close (`close(j.completed)`) of
job `m`? -/
def isCloseCompletedOf (m : Nat) : Ev → Bool
  | Ev.closeCompleted k => k == m
  | _ => false

/-- Is this event a task dispatch belonging to job `m`? -/
def isDispatchOf (m : Nat) : Ev → Bool
  | Ev.dispatchTask k _ => k == m
  | _ => false

/-- The first outcome value sent to job `k`'s result channel in a trace
(`Job.Wait` returns this value). -/
def deliveredOutcome (k : Nat) : List Ev → Option (Option WError)
  | [] => none
  | Ev.deliver m out :: tl => if m = k then some out else deliveredOutcome k tl
  | _ :: tl => deliveredOutcome k tl

/-- A Go channel holding values of type `α`, as the pool uses `w.queue`:
a closed flag plus buffered contents. -/
structure Chan (α : Type) where
  closed : Bool
  buf : List α
deriving DecidableEq, Repr

/-- A channel send: appends to the buffer; a send on a closed channel
panics, modelled as `none`. -/
def chanSend {α : Type} (c : Chan α) (a : α) : Option (Chan α) :=
  if c.closed then none else some { c with buf := c.buf ++ [a] }

/-- `close` on a channel. -/
def chanClose {α : Type} (c : Chan α) : Chan α :=
  { c with closed := true }

/-- What `NewJob` gives back to its caller, plus whether the send on the
admission queue panicked. -/
inductive SubmitResult where
  | rejected : SubmitResult
  | enqueued : JobS → SubmitResult
  | panicked : SubmitResult
deriving DecidableEq, Repr

/-- The part of `NewJob` after the shutdown-flag check has passed:
construct the job (its task channel starts empty) and send it on
`w.queue`. -/
def submitAfterCheck (q : Chan JobS) : SubmitResult × Chan JobS :=
  match chanSend q ⟨[]⟩ with
  | none => (SubmitResult.panicked, q)
  | some q2 => (SubmitResult.enqueued ⟨[]⟩, q2)

/-- `NewJob` (the `Submit` operation): read `w.shouldShutdown` under the
lock; if set, return `(nil, ErrShutdown)` without constructing a job or
touching the queue; otherwise construct the job and send it on `w.queue`.
The `taskBacklog` argument only sizes the job's task channel. -/
def NewJob (shouldShutdown : Bool) (q : Chan JobS) (taskBacklog : Nat) :
    SubmitResult × Chan JobS :=
  if shouldShutdown then
    (SubmitResult.rejected, q)
  else
    submitAfterCheck q

/-- The admission-side half of `Stop`: set `w.shouldShutdown` under the
lock, then `close(w.queue)`. -/
def stopAdmission (q : Chan JobS) : Bool × Chan JobS :=
  (true, chanClose q)

/-- The blocking actions of `Stop`, in program order. -/
inductive StopEv where
  | setShutdownFlag : StopEv
  | closeQueue : StopEv
  | recvAck : StopEv
  | closeStopWorkers : StopEv
  | recvWorkerExit : Nat → StopEv
  | ret : StopEv
deriving DecidableEq, Repr

/-- Is this a receive of one worker's exit confirmation
(`<-w.stoppedWorkers`)? -/
def isWorkerExit : StopEv → Bool
  | StopEv.recvWorkerExit _ => true
  | _ => false

/-- The sequence of actions `Stop` performs, for a pool with `count`
workers: set the flag, close the queue, wait on `<-w.ackShutdown`, then
`close(w.stopWorkers)`, then receive `count` exit confirmations on
`w.stoppedWorkers`, then return. -/
def stopTrace (count : Nat) : List StopEv :=
  ([StopEv.setShutdownFlag, StopEv.closeQueue, StopEv.recvAck, StopEv.closeStopWorkers]
      ++ (List.range count).map StopEv.recvWorkerExit)
    ++ [StopEv.ret]

-- Basic facts about the error-slot fold.

theorem runTasksFrom_some (e : WError) :
    ∀ ts : List Task, runTasksFrom (some e) ts = some e := by
  intro ts
  induction ts with
  | nil => rfl
  | cons t tl ih => simp [runTasksFrom, ih]

theorem runTasksFrom_none_head :
    ∀ ts : List Task, runTasksFrom none ts = (ts.filterMap id).head? := by
  intro ts
  induction ts with
  | nil => rfl
  | cons t tl ih =>
    cases t with
    | none => simpa [runTasksFrom] using ih
    | some te =>
        simp [runTasksFrom, setIfAbsent, runTasksFrom_some, List.filterMap_cons]

-- Unfolding lemmas for the scheduler loop.

theorem schedJob_true (e : Option WError) (k : Nat) (j : JobS) :
    schedJob true e k j = (e, [Ev.deliver k (some WError.errShutdown)]) := rfl

theorem schedJob_false (e : Option WError) (k : Nat) (j : JobS) :
    schedJob false e k j
      = (none,
          dispatchEvs k j.tasks ++
            [Ev.waitCleared k, Ev.closeCompleted k,
              Ev.deliver k (runTasksFrom e j.tasks), Ev.resetErr k]) := rfl

theorem schedJob_errSlot_none (b : Bool) (k : Nat) (j : JobS) :
    (schedJob b none k j).1 = none := by
  cases b <;> rfl

theorem schedJobs_nil (ss : Nat → Bool) (e : Option WError) (k : Nat) :
    schedJobs ss e k [] = (e, []) := rfl

theorem schedJobs_cons (ss : Nat → Bool) (k : Nat) (j : JobS) (tl : List JobS) :
    schedJobs ss none k (j :: tl)
      = ((schedJobs ss none (k + 1) tl).1,
          (schedJob (ss k) none k j).2 ++ (schedJobs ss none (k + 1) tl).2) := by
  simp only [schedJobs, schedJob_errSlot_none]

theorem schedJobs_trace_cons (ss : Nat → Bool) (k : Nat) (j : JobS) (tl : List JobS) :
    (schedJobs ss none k (j :: tl)).2
      = (schedJob (ss k) none k j).2 ++ (schedJobs ss none (k + 1) tl).2 := by
  rw [schedJobs_cons]

theorem schedJobs_errSlot_none (ss : Nat → Bool) :
    ∀ (js : List JobS) (k : Nat), (schedJobs ss none k js).1 = none := by
  intro js
  induction js with
  | nil => intro k; rfl
  | cons j tl ih =>
      intro k
      rw [schedJobs_cons]
      exact ih (k + 1)

-- Every event of a scheduler iteration carries that iteration's job index.

theorem evJob_dispatchEvs (k : Nat) (ts : List Task) :
    ∀ e ∈ dispatchEvs k ts, evJob e = some k := by
  intro e he
  simp only [dispatchEvs, List.mem_map, List.mem_range] at he
  obtain ⟨i, -, rfl⟩ := he
  rfl

theorem evJob_schedJob (b : Bool) (e0 : Option WError) (k : Nat) (j : JobS) :
    ∀ e ∈ (schedJob b e0 k j).2, evJob e = some k := by
  cases b with
  | true =>
      intro e he
      rw [schedJob_true] at he
      simp only [List.mem_singleton] at he
      subst he
      rfl
  | false =>
      intro e he
      rw [schedJob_false] at he
      rcases List.mem_append.mp he with h | h
      · exact evJob_dispatchEvs k j.tasks e h
      · simp only [List.mem_cons, List.mem_singleton, List.not_mem_nil, or_false] at h
        rcases h with rfl | rfl | rfl | rfl <;> rfl

theorem evJob_schedJobs_ge (ss : Nat → Bool) :
    ∀ (js : List JobS) (k : Nat) (e : Ev), e ∈ (schedJobs ss none k js).2 →
      ∀ m : Nat, evJob e = some m → k ≤ m := by
  intro js
  induction js with
  | nil =>
      intro k e he
      rw [schedJobs_nil] at he
      simp at he
  | cons j tl ih =>
      intro k e he m hm
      rw [schedJobs_trace_cons] at he
      rcases List.mem_append.mp he with h | h
      · have hk := evJob_schedJob (ss k) none k j e h
        rw [hk] at hm
        injection hm with h2
        omega
      · have := ih (k + 1) e h m hm
        omega

-- Master decomposition: the scheduler trace splits around any single job's
-- iteration, and all events outside that iteration carry other job indices.

theorem schedJobs_decomp (ss : Nat → Bool) :
    ∀ (js : List JobS) (k i : Nat) (hi : i < js.length),
      ∃ pre post,
        (schedJobs ss none k js).2
          = pre ++ (schedJob (ss (k + i)) none (k + i) (js.get ⟨i, hi⟩)).2 ++ post ∧
        (∀ e ∈ pre, ∀ m, evJob e = some m → m < k + i) ∧
        (∀ e ∈ post, ∀ m, evJob e = some m → k + i < m) := by
  intro js
  induction js with
  | nil =>
      intro k i hi
      simp at hi
  | cons j tl ih =>
      intro k i hi
      cases i with
      | zero =>
          refine ⟨[], (schedJobs ss none (k + 1) tl).2, ?_, ?_, ?_⟩
          · rw [schedJobs_trace_cons]
            simp
          · intro e he
            simp at he
          · intro e he m hm
            have := evJob_schedJobs_ge ss tl (k + 1) e he m hm
            omega
      | succ i2 =>
          have hi2 : i2 < tl.length := Nat.lt_of_succ_lt_succ hi
          obtain ⟨pre, post, htr, hpre, hpost⟩ := ih (k + 1) i2 hi2
          refine ⟨(schedJob (ss k) none k j).2 ++ pre, post, ?_, ?_, ?_⟩
          · rw [schedJobs_trace_cons, htr]
            have hk : k + (i2 + 1) = k + 1 + i2 := by omega
            simp [hk, List.append_assoc]
          · intro e he m hm
            rcases List.mem_append.mp he with h | h
            · have hk := evJob_schedJob (ss k) none k j e h
              rw [hk] at hm
              injection hm with h2
              omega
            · have := hpre e h m hm
              omega
          · intro e he m hm
            have := hpost e he m hm
            omega

-- Count lemmas for the indexed event predicates.

theorem evJob_of_isDeliverTo {m : Nat} {e : Ev} (h : isDeliverTo m e = true) :
    evJob e = some m := by
  cases e <;> simp [isDeliverTo] at h <;> simp [evJob, h]

theorem evJob_of_isResetOf {m : Nat} {e : Ev} (h : isResetOf m e = true) :
    evJob e = some m := by
  cases e <;> simp [isResetOf] at h <;> simp [evJob, h]

theorem evJob_of_isCloseCompletedOf {m : Nat} {e : Ev}
    (h : isCloseCompletedOf m e = true) : evJob e = some m := by
  cases e <;> simp [isCloseCompletedOf] at h <;> simp [evJob, h]

theorem evJob_of_isDispatchOf {m : Nat} {e : Ev} (h : isDispatchOf m e = true) :
    evJob e = some m := by
  cases e <;> simp [isDispatchOf] at h <;> simp [evJob, h]

theorem countP_dispatchEvs_eq_zero (p : Ev → Bool) (k : Nat) (ts : List Task)
    (hp : ∀ k2 i, p (Ev.dispatchTask k2 i) = false) :
    (dispatchEvs k ts).countP p = 0 := by
  refine List.countP_eq_zero.mpr ?_
  intro e he
  simp only [dispatchEvs, List.mem_map, List.mem_range] at he
  obtain ⟨i, -, rfl⟩ := he
  simp [hp]

theorem countP_dispatchEvs_self (k : Nat) (ts : List Task) :
    (dispatchEvs k ts).countP (isDispatchOf k) = ts.length := by
  rw [dispatchEvs, List.countP_map]
  have h : (isDispatchOf k ∘ fun i => Ev.dispatchTask k i) = fun _ : Nat => true := by
    funext i
    simp [Function.comp, isDispatchOf]
  rw [h]
  simp

theorem countP_outside_eq_zero {p : Ev → Bool} {m : Nat}
    (hp : ∀ e, p e = true → evJob e = some m) (l : List Ev)
    (hl : ∀ e ∈ l, ∀ m2, evJob e = some m2 → m2 ≠ m) :
    l.countP p = 0 := by
  refine List.countP_eq_zero.mpr ?_
  intro e he hpe
  exact hl e he m (hp e hpe) rfl

-- Per-job counts in the full scheduler trace.

theorem schedJobs_countP_deliver (ss : Nat → Bool) (js : List JobS) (k i : Nat)
    (hi : i < js.length) :
    (schedJobs ss none k js).2.countP (isDeliverTo (k + i)) = 1 := by
  obtain ⟨pre, post, htr, hpre, hpost⟩ := schedJobs_decomp ss js k i hi
  rw [htr, List.countP_append, List.countP_append]
  have hpre0 : pre.countP (isDeliverTo (k + i)) = 0 :=
    countP_outside_eq_zero (fun e h => evJob_of_isDeliverTo h) pre
      (fun e he m2 hm2 => by have := hpre e he m2 hm2; omega)
  have hpost0 : post.countP (isDeliverTo (k + i)) = 0 :=
    countP_outside_eq_zero (fun e h => evJob_of_isDeliverTo h) post
      (fun e he m2 hm2 => by have := hpost e he m2 hm2; omega)
  rw [hpre0, hpost0]
  cases hss : ss (k + i) with
  | true =>
      rw [schedJob_true]
      simp [isDeliverTo]
  | false =>
      rw [schedJob_false, List.countP_append]
      rw [countP_dispatchEvs_eq_zero (isDeliverTo (k + i)) _ _ (fun k2 i2 => rfl)]
      simp [List.countP_cons, isDeliverTo]

theorem schedJobs_countP_reset (ss : Nat → Bool) (js : List JobS) (k i : Nat)
    (hi : i < js.length) (hss : ss (k + i) = false) :
    (schedJobs ss none k js).2.countP (isResetOf (k + i)) = 1 := by
  obtain ⟨pre, post, htr, hpre, hpost⟩ := schedJobs_decomp ss js k i hi
  rw [hss, schedJob_false] at htr
  rw [htr, List.countP_append, List.countP_append, List.countP_append]
  have hpre0 : pre.countP (isResetOf (k + i)) = 0 :=
    countP_outside_eq_zero (fun e h => evJob_of_isResetOf h) pre
      (fun e he m2 hm2 => by have := hpre e he m2 hm2; omega)
  have hpost0 : post.countP (isResetOf (k + i)) = 0 :=
    countP_outside_eq_zero (fun e h => evJob_of_isResetOf h) post
      (fun e he m2 hm2 => by have := hpost e he m2 hm2; omega)
  rw [hpre0, hpost0]
  rw [countP_dispatchEvs_eq_zero (isResetOf (k + i)) _ _ (fun k2 i2 => rfl)]
  simp [List.countP_cons, isResetOf]

theorem schedJobs_countP_close_shutdown (ss : Nat → Bool) (js : List JobS) (k i : Nat)
    (hi : i < js.length) (hss : ss (k + i) = true) :
    (schedJobs ss none k js).2.countP (isCloseCompletedOf (k + i)) = 0 := by
  obtain ⟨pre, post, htr, hpre, hpost⟩ := schedJobs_decomp ss js k i hi
  rw [hss, schedJob_true] at htr
  rw [htr, List.countP_append, List.countP_append]
  have hpre0 : pre.countP (isCloseCompletedOf (k + i)) = 0 :=
    countP_outside_eq_zero (fun e h => evJob_of_isCloseCompletedOf h) pre
      (fun e he m2 hm2 => by have := hpre e he m2 hm2; omega)
  have hpost0 : post.countP (isCloseCompletedOf (k + i)) = 0 :=
    countP_outside_eq_zero (fun e h => evJob_of_isCloseCompletedOf h) post
      (fun e he m2 hm2 => by have := hpost e he m2 hm2; omega)
  rw [hpre0, hpost0]
  simp [List.countP_cons, isCloseCompletedOf]

theorem schedJobs_countP_dispatch_shutdown (ss : Nat → Bool) (js : List JobS) (k i : Nat)
    (hi : i < js.length) (hss : ss (k + i) = true) :
    (schedJobs ss none k js).2.countP (isDispatchOf (k + i)) = 0 := by
  obtain ⟨pre, post, htr, hpre, hpost⟩ := schedJobs_decomp ss js k i hi
  rw [hss, schedJob_true] at htr
  rw [htr, List.countP_append, List.countP_append]
  have hpre0 : pre.countP (isDispatchOf (k + i)) = 0 :=
    countP_outside_eq_zero (fun e h => evJob_of_isDispatchOf h) pre
      (fun e he m2 hm2 => by have := hpre e he m2 hm2; omega)
  have hpost0 : post.countP (isDispatchOf (k + i)) = 0 :=
    countP_outside_eq_zero (fun e h => evJob_of_isDispatchOf h) post
      (fun e he m2 hm2 => by have := hpost e he m2 hm2; omega)
  rw [hpre0, hpost0]
  simp [List.countP_cons, isDispatchOf]

-- Position facts: what surrounds one job's delivery in the full trace.

theorem schedJobs_adjacency (ss : Nat → Bool) (js : List JobS) (k i : Nat)
    (hi : i < js.length) (hss : ss (k + i) = false) :
    ∃ pre post,
      (schedJobs ss none k js).2
        = pre ++ [Ev.closeCompleted (k + i),
            Ev.deliver (k + i) (runTasksFrom none (js.get ⟨i, hi⟩).tasks),
            Ev.resetErr (k + i)] ++ post := by
  obtain ⟨pre, post, htr, -, -⟩ := schedJobs_decomp ss js k i hi
  rw [hss, schedJob_false] at htr
  refine ⟨pre ++ (dispatchEvs (k + i) (js.get ⟨i, hi⟩).tasks ++ [Ev.waitCleared (k + i)]),
    post, ?_⟩
  rw [htr]
  simp [List.append_assoc]

theorem schedJobs_shutdown_deliver_mem (ss : Nat → Bool) (js : List JobS) (k i : Nat)
    (hi : i < js.length) (hss : ss (k + i) = true) :
    Ev.deliver (k + i) (some WError.errShutdown) ∈ (schedJobs ss none k js).2 := by
  obtain ⟨pre, post, htr, -, -⟩ := schedJobs_decomp ss js k i hi
  rw [hss, schedJob_true] at htr
  rw [htr]
  simp

-- With the shutdown flag permanently set, the scheduler trace is nothing
-- but shutdown resolutions.

theorem schedJobs_const_true_shape (js : List JobS) :
    ∀ (k : Nat) (e : Ev), e ∈ (schedJobs (fun _ => true) none k js).2 →
      ∃ m, e = Ev.deliver m (some WError.errShutdown) := by
  induction js with
  | nil =>
      intro k e he
      rw [schedJobs_nil] at he
      simp at he
  | cons j tl ih =>
      intro k e he
      rw [schedJobs_trace_cons] at he
      rcases List.mem_append.mp he with h | h
      · simp only [schedJob_true, List.mem_singleton] at h
        exact ⟨k, h⟩
      · exact ih (k + 1) e h

theorem ackClosed_not_mem_schedJobs (ss : Nat → Bool) (js : List JobS) :
    ∀ k : Nat, Ev.ackClosed ∉ (schedJobs ss none k js).2 := by
  induction js with
  | nil =>
      intro k h
      rw [schedJobs_nil] at h
      simp at h
  | cons j tl ih =>
      intro k h
      rw [schedJobs_trace_cons] at h
      rcases List.mem_append.mp h with h2 | h2
      · have := evJob_schedJob (ss k) none k j _ h2
        simp [evJob] at this
      · exact ih (k + 1) h2

-- The guarded final acknowledgment block.

theorem finalAck_inv (s : AckState) (h1 : s.ackCloses ≤ 1)
    (h2 : s.triggeredShutdown = false → s.ackCloses = 0) :
    (finalAck s).ackCloses ≤ 1 ∧
      ((finalAck s).triggeredShutdown = false → (finalAck s).ackCloses = 0) := by
  unfold finalAck
  by_cases hb : (s.shouldShutdown && !s.triggeredShutdown) = true
  · rw [if_pos hb]
    have ht : s.triggeredShutdown = false := by
      have := (Bool.and_eq_true _ _).mp hb
      simpa using this.2
    constructor
    · simp [h2 ht]
    · intro hcon
      simp at hcon
  · rw [if_neg hb]
    exact ⟨h1, h2⟩

theorem finalAck_iterate_facts (ss : Bool) :
    ∀ k : Nat,
      (finalAck^[k] (⟨ss, false, 0⟩ : AckState)).ackCloses ≤ 1 ∧
        ((finalAck^[k] (⟨ss, false, 0⟩ : AckState)).triggeredShutdown = false →
          (finalAck^[k] (⟨ss, false, 0⟩ : AckState)).ackCloses = 0) := by
  intro k
  induction k with
  | zero => simp
  | succ k2 ih =>
      rw [Function.iterate_succ_apply']
      exact finalAck_inv _ ih.1 ih.2

-- Facts about the action sequence of Stop.

theorem stopTrace_take4 (n : Nat) :
    (stopTrace n).take 4
      = [StopEv.setShutdownFlag, StopEv.closeQueue, StopEv.recvAck,
          StopEv.closeStopWorkers] := rfl

theorem stopTrace_getLast (n : Nat) :
    (stopTrace n).getLast? = some StopEv.ret := by
  rw [stopTrace, List.getLast?_concat]

theorem stopTrace_workerExit_count (n : Nat) :
    (stopTrace n).countP isWorkerExit = n := by
  rw [stopTrace, List.countP_append, List.countP_append, List.countP_map]
  have h : (isWorkerExit ∘ StopEv.recvWorkerExit) = fun _ : Nat => true := by
    funext i
    simp [Function.comp, isWorkerExit]
  rw [h]
  simp [List.countP_cons, isWorkerExit]

theorem stopTrace_ret_count (n : Nat) :
    (stopTrace n).countP (fun e => e == StopEv.ret) = 1 := by
  rw [stopTrace, List.countP_append, List.countP_append, List.countP_map]
  have h : ((fun e => e == StopEv.ret) ∘ StopEv.recvWorkerExit) = fun _ : Nat => false := by
    funext i
    simp
  rw [h]
  simp [List.countP_cons]

theorem stopTrace_workerExit_mem (n : Nat) (i : Nat) (hi : i < n) :
    StopEv.recvWorkerExit i ∈ stopTrace n := by
  have h1 : StopEv.recvWorkerExit i ∈ (List.range n).map StopEv.recvWorkerExit :=
    List.mem_map_of_mem _ (List.mem_range.mpr hi)
  rw [stopTrace]
  exact List.mem_append_left _ (List.mem_append_right _ h1)

/-- C1: the claim says a task outcome never terminates the worker loop:
after receiving a task, whether the worker skips it (shared error slot
occupied) or runs it (success or failure), it returns to its select loop,
and only a stop signal terminates it.  The code agrees on the stop path
(terminate, after confirming on `stoppedWorkers`) and on the run path
(continue), but on the skip path `startWorker` executes `return` after
`w.sg.Done()`: the worker goroutine exits permanently, and without
sending its exit confirmation.  This theorem records all three paths of
the embedded worker step; the third conjunct evaluates the failing input
(a task arriving while the slot holds an earlier error). -/
theorem C1_worker_skip_terminates :
    (∀ s : Shared,
      workerStep WorkerInput.stopSignal s = (s, WorkerOutcome.terminated true)) ∧
    (∀ t : Task,
      (workerStep (WorkerInput.task t) ⟨none, 1⟩).2 = WorkerOutcome.continues) ∧
    workerStep (WorkerInput.task none) ⟨some (WError.taskErr 0), 1⟩
      = (⟨some (WError.taskErr 0), 0⟩, WorkerOutcome.terminated false) := by
  refine ⟨fun s => rfl, ?_, rfl⟩
  intro t
  cases t <;> rfl

/-- C2 counterexample: a job that the scheduler resolves with the shutdown
error has its outcome delivered although its completion signal never
fires — the iteration's whole trace is the single delivery event, with no
`closeCompleted` event anywhere. -/
theorem C2_counterexample :
    (schedJobs (fun _ => true) none 0 [⟨[]⟩]).2
        = [Ev.deliver 0 (some WError.errShutdown)] ∧
      Ev.closeCompleted 0 ∉ (schedJobs (fun _ => true) none 0 [⟨[]⟩]).2 := by
  decide

/-- C2 (amended): every job handed to the pool has its outcome delivered
exactly once; for a job the scheduler executes, delivery happens
immediately after its completion signal fires; but for a job resolved
with the shutdown error the completion signal never fires. -/
theorem C2_outcome_delivery (ss : Nat → Bool) (js : List JobS) (k i : Nat)
    (hi : i < js.length) :
    (schedJobs ss none k js).2.countP (isDeliverTo (k + i)) = 1 ∧
      (ss (k + i) = false →
        ∃ pre post,
          (schedJobs ss none k js).2
            = pre ++ [Ev.closeCompleted (k + i),
                Ev.deliver (k + i) (runTasksFrom none (js.get ⟨i, hi⟩).tasks),
                Ev.resetErr (k + i)] ++ post) ∧
      (ss (k + i) = true →
        (schedJobs ss none k js).2.countP (isCloseCompletedOf (k + i)) = 0) := by
  refine ⟨schedJobs_countP_deliver ss js k i hi, ?_, ?_⟩
  · intro hss
    exact schedJobs_adjacency ss js k i hi hss
  · intro hss
    exact schedJobs_countP_close_shutdown ss js k i hi hss

theorem C2_outcome_delivery_witness :
    0 < ([(⟨[]⟩ : JobS)] : List JobS).length ∧
      (schedJobs (fun _ => false) none 0 [⟨[]⟩]).2.countP (isDeliverTo 0) = 1 :=
  ⟨by decide, (C2_outcome_delivery (fun _ => false) [⟨[]⟩] 0 0 (by decide)).1⟩

/-- C3: `Stop` sets the shutdown flag, closes the admission queue, waits
for the scheduler's acknowledgment, then closes the worker stop channel,
and returns only after receiving all `n` worker exit confirmations (the
return action is last, and a worker's stop path confirms then
terminates).  On the scheduler side, with the shutdown flag set, the
acknowledgment is the final event of the run, emitted after every queued
job has been resolved with the shutdown error. -/
theorem C3_stop (n : Nat) (js : List JobS) (i : Nat) (hin : i < n)
    (ij : Nat) (hij : ij < js.length) :
    (stopTrace n).take 4
        = [StopEv.setShutdownFlag, StopEv.closeQueue, StopEv.recvAck,
            StopEv.closeStopWorkers] ∧
      (stopTrace n).countP isWorkerExit = n ∧
      (stopTrace n).countP (fun e => e == StopEv.ret) = 1 ∧
      (stopTrace n).getLast? = some StopEv.ret ∧
      StopEv.recvWorkerExit i ∈ stopTrace n ∧
      (∀ s : Shared,
        workerStep WorkerInput.stopSignal s = (s, WorkerOutcome.terminated true)) ∧
      (∃ ds, (processQueue (fun _ => true) true js).trace = ds ++ [Ev.ackClosed] ∧
        ∀ e ∈ ds, ∃ m, e = Ev.deliver m (some WError.errShutdown)) ∧
      Ev.deliver ij (some WError.errShutdown)
        ∈ (processQueue (fun _ => true) true js).trace := by
  have htr : (processQueue (fun _ => true) true js).trace
      = (schedJobs (fun _ => true) none 0 js).2 ++ [Ev.ackClosed] := rfl
  refine ⟨stopTrace_take4 n, stopTrace_workerExit_count n, stopTrace_ret_count n,
    stopTrace_getLast n, stopTrace_workerExit_mem n i hin, fun s => rfl, ?_, ?_⟩
  · exact ⟨(schedJobs (fun _ => true) none 0 js).2, htr,
      fun e he => schedJobs_const_true_shape js 0 e he⟩
  · rw [htr]
    have := schedJobs_shutdown_deliver_mem (fun _ => true) js 0 ij hij rfl
    rw [Nat.zero_add] at this
    exact List.mem_append_left _ this

theorem C3_stop_witness :
    (0 < 1 ∧ 0 < ([(⟨[]⟩ : JobS)] : List JobS).length) ∧
      (stopTrace 1).countP isWorkerExit = 1 ∧
      Ev.deliver 0 (some WError.errShutdown)
        ∈ (processQueue (fun _ => true) true [⟨[]⟩]).trace :=
  ⟨⟨by decide, by decide⟩,
    (C3_stop 1 [⟨[]⟩] 0 (by decide) 0 (by decide)).2.1,
    (C3_stop 1 [⟨[]⟩] 0 (by decide) 0 (by decide)).2.2.2.2.2.2.2⟩

/-- C4: first-error-wins.  The worker records a failure into the shared
slot only when the slot is empty; a later error of the same job is
discarded, so the outcome the scheduler delivers for an executed job
(what `Wait` returns) is exactly the first error in arrival order at the
slot. -/
theorem C4_first_error_wins :
    (∀ e : WError, setIfAbsent none e = some e) ∧
    (∀ e0 e : WError, setIfAbsent (some e0) e = some e0) ∧
    (∀ ts : List Task, runTasksFrom none ts = (ts.filterMap id).head?) ∧
    (∀ (k : Nat) (j : JobS),
      Ev.deliver k ((j.tasks.filterMap id).head?) ∈ (schedJob false none k j).2) := by
  refine ⟨fun e => rfl, fun e0 e => rfl, runTasksFrom_none_head, ?_⟩
  intro k j
  rw [schedJob_false, runTasksFrom_none_head]
  simp

/-- C5: job isolation via the error-slot reset.  Starting from an empty
slot, every executed job's delivered outcome is computed from the empty
slot and its own tasks alone, the slot's reset for that job happens
exactly once and immediately after its delivery, and the slot is empty
again when the run ends — so an error captured for one job never appears
as the outcome of a later job. -/
theorem C5_error_slot_reset (ss : Nat → Bool) (js : List JobS) (k i : Nat)
    (hi : i < js.length) (hss : ss (k + i) = false) :
    (schedJobs ss none k js).1 = none ∧
      (schedJobs ss none k js).2.countP (isResetOf (k + i)) = 1 ∧
      ∃ pre post,
        (schedJobs ss none k js).2
          = pre ++ [Ev.deliver (k + i) (runTasksFrom none (js.get ⟨i, hi⟩).tasks),
              Ev.resetErr (k + i)] ++ post := by
  refine ⟨schedJobs_errSlot_none ss js k,
    schedJobs_countP_reset ss js k i hi hss, ?_⟩
  obtain ⟨pre, post, htr⟩ := schedJobs_adjacency ss js k i hi hss
  refine ⟨pre ++ [Ev.closeCompleted (k + i)], post, ?_⟩
  rw [htr]
  simp [List.append_assoc]

theorem C5_error_slot_reset_witness :
    (0 < ([(⟨[some (WError.taskErr 5)]⟩ : JobS)] : List JobS).length ∧
        (fun _ : Nat => false) (0 + 0) = false) ∧
      (schedJobs (fun _ => false) none 0 [⟨[some (WError.taskErr 5)]⟩]).1 = none :=
  ⟨⟨by decide, rfl⟩,
    (C5_error_slot_reset (fun _ => false) [⟨[some (WError.taskErr 5)]⟩] 0 0
        (by decide) rfl).1⟩

/-- C6: `NewJob` with the shutdown flag already set returns the shutdown
error and no job handle, leaving the admission queue untouched. -/
theorem C6_submit_fails_fast (q : Chan JobS) (b : Nat) :
    NewJob true q b = (SubmitResult.rejected, q) := rfl

/-- C7: every job the scheduler dequeues with the shutdown flag set is
resolved with the shutdown error — delivered exactly once, with no task
dispatch and no completion-signal close for it — and the loop proceeds:
every other queued job still receives exactly one delivery. -/
theorem C7_shutdown_resolution (ss : Nat → Bool) (js : List JobS) (k i : Nat)
    (hi : i < js.length) (hss : ss (k + i) = true) :
    Ev.deliver (k + i) (some WError.errShutdown) ∈ (schedJobs ss none k js).2 ∧
      (schedJobs ss none k js).2.countP (isDeliverTo (k + i)) = 1 ∧
      (schedJobs ss none k js).2.countP (isDispatchOf (k + i)) = 0 ∧
      (schedJobs ss none k js).2.countP (isCloseCompletedOf (k + i)) = 0 ∧
      ∀ i2, i2 < js.length →
        (schedJobs ss none k js).2.countP (isDeliverTo (k + i2)) = 1 :=
  ⟨schedJobs_shutdown_deliver_mem ss js k i hi hss,
    schedJobs_countP_deliver ss js k i hi,
    schedJobs_countP_dispatch_shutdown ss js k i hi hss,
    schedJobs_countP_close_shutdown ss js k i hi hss,
    fun i2 hi2 => schedJobs_countP_deliver ss js k i2 hi2⟩

theorem C7_shutdown_resolution_witness :
    (0 < ([(⟨[none]⟩ : JobS)] : List JobS).length ∧
        (fun _ : Nat => true) (0 + 0) = true) ∧
      Ev.deliver (0 + 0) (some WError.errShutdown)
        ∈ (schedJobs (fun _ => true) none 0 [⟨[none]⟩]).2 :=
  ⟨⟨by decide, rfl⟩,
    (C7_shutdown_resolution (fun _ => true) [⟨[none]⟩] 0 0 (by decide) rfl).1⟩

/-- C8: the final acknowledgment is guarded by `triggeredShutdown`: no
matter how many times the acknowledgment point runs, `close(ackShutdown)`
executes at most once; and a whole `processQueue` run emits at most one
acknowledgment event. -/
theorem C8_ack_at_most_once (ssFinal : Bool) (k : Nat) (ss : Nat → Bool)
    (js : List JobS) :
    (finalAck^[k] (⟨ssFinal, false, 0⟩ : AckState)).ackCloses ≤ 1 ∧
      (processQueue ss ssFinal js).trace.countP (fun e => e == Ev.ackClosed) ≤ 1 := by
  refine ⟨(finalAck_iterate_facts ssFinal k).1, ?_⟩
  have h0 : (schedJobs ss none 0 js).2.countP (fun e => e == Ev.ackClosed) = 0 := by
    refine List.countP_eq_zero.mpr ?_
    intro e he hpe
    have he2 : e = Ev.ackClosed := by simpa using hpe
    subst he2
    exact ackClosed_not_mem_schedJobs ss js 0 he
  have htr : (processQueue ss ssFinal js).trace
      = (schedJobs ss none 0 js).2
        ++ (if (finalAck ⟨ssFinal, false, 0⟩).ackCloses = 1 then [Ev.ackClosed]
            else []) := rfl
  rw [htr, List.countP_append, h0]
  by_cases hc : (finalAck ⟨ssFinal, false, 0⟩).ackCloses = 1
  · rw [if_pos hc]
    simp
  · rw [if_neg hc]
    simp

/-- C9 counterexample: if `Stop` closes the admission queue between
`NewJob`'s shutdown-flag check and its send on `w.queue`, the send hits a
closed channel — a panic in Go, not a successful enqueue, refuting "the
submission still succeeds in enqueuing the Job". -/
theorem C9_counterexample :
    (submitAfterCheck (stopAdmission (⟨false, []⟩ : Chan JobS)).2).1
      = SubmitResult.panicked := by
  decide

/-- C9 (amended): the race with `Stop` is benign for the submitter only
when its send wins: if the queue is still open the job is enqueued, and
the scheduler resolves any job it dequeues with the flag set as a
shutdown failure rather than executing it; if `Stop` closes the queue
first, the send panics. -/
theorem C9_race (q : Chan JobS) (h : q.closed = false) :
    (submitAfterCheck q).1 = SubmitResult.enqueued ⟨[]⟩ ∧
      (submitAfterCheck q).2.buf = q.buf ++ [(⟨[]⟩ : JobS)] ∧
      (∀ (e : Option WError) (k : Nat) (j : JobS),
        schedJob true e k j = (e, [Ev.deliver k (some WError.errShutdown)])) ∧
      (submitAfterCheck (chanClose q)).1 = SubmitResult.panicked := by
  have hs : chanSend q (⟨[]⟩ : JobS)
      = some { q with buf := q.buf ++ [(⟨[]⟩ : JobS)] } := by
    simp [chanSend, h]
  refine ⟨?_, ?_, fun e k j => rfl, ?_⟩
  · simp [submitAfterCheck, hs]
  · simp [submitAfterCheck, hs]
  · simp [submitAfterCheck, chanSend, chanClose]

theorem C9_race_witness :
    (⟨false, []⟩ : Chan JobS).closed = false ∧
      (submitAfterCheck (⟨false, []⟩ : Chan JobS)).1 = SubmitResult.enqueued ⟨[]⟩ :=
  ⟨rfl, (C9_race ⟨false, []⟩ rfl).1⟩

/-- C10: empty-job edge case.  A job admitted while the pool is running,
finalized with no tasks pushed, makes the scheduler's drain loop
terminate immediately (no dispatch events), the completion signal fires,
and the delivered outcome — what `Wait` returns — is `nil`, the error
slot being empty at the start of the job's execution. -/
theorem C10_empty_job (b : Nat) :
    (NewJob false (⟨false, []⟩ : Chan JobS) b).1 = SubmitResult.enqueued ⟨[]⟩ ∧
      jobDone (⟨[]⟩ : JobS) = ([] : List Task) ∧
      schedJob false none 0 ⟨[]⟩
        = (none,
            [Ev.waitCleared 0, Ev.closeCompleted 0, Ev.deliver 0 none,
              Ev.resetErr 0]) ∧
      deliveredOutcome 0 (schedJob false none 0 (⟨[]⟩ : JobS)).2 = some none := by
  refine ⟨rfl, rfl, ?_, by decide⟩
  decide

end Workers
